import Mathlib

/-!
Shallow embedding of the message-handling core of `pdd-bot` (src/pdd-bot/src/main.rs):
the decimal parser, the flexible date/time parser, the glucose/medication command
parsers, the per-chat pending-entry map, the append-only record store, and the
`handle_message` router.

Modelling conventions:
* Rust `&str`/`String` become Lean `String`; the string utilities used by the source
  (`trim`, `split_whitespace`, `split(c)`, `strip_prefix`, `replace`, `find`) are
  re-implemented on `List Char` so that everything reduces in the kernel.
* Rust `f64` values are represented exactly: the number arm of `f64::from_str`
  yields a rational `ℚ` (real-valued, no rounding), and the case-insensitive
  `inf`/`infinity`/`nan` keyword arms yield the corresponding non-finite values of
  `F64Val`.  Whitespace predicates use Rust's Unicode `White_Space` set.
* `chrono::NaiveDate::from_ymd_opt` is modelled with the proleptic Gregorian calendar
  and chrono's year range; `Local.from_local_datetime` (system-timezone resolution
  composed with `to_rfc3339`) is an abstract parameter `resolve` returning a
  `LocalResult`, whose `ambiguous` constructor carries the earlier instant first,
  exactly as chrono documents `LocalResult::Ambiguous(earliest, latest)`.
* The file system is a pure association list from file keys to lists of lines; CSV
  data lines are kept structured (timestamp text, chat id, tag, value, note) since
  their exact `f64` rendering is irrelevant to every claim.
-/

namespace PddBot

/-! ### Character-list string utilities -/

/-- Rust `char::is_whitespace`: the Unicode `White_Space` property — U+0009..U+000D,
space, NEL, NBSP, Ogham space mark, U+2000..U+200A, line/paragraph separator,
narrow NBSP, medium mathematical space, ideographic space.  (Lean's own
`Char.isWhitespace` covers only the ASCII subset and would be unfaithful.) -/
def isWs (c : Char) : Bool :=
  let n := c.toNat
  (0x09 ≤ n ∧ n ≤ 0x0D) ∨ n = 0x20 ∨ n = 0x85 ∨ n = 0xA0 ∨ n = 0x1680 ∨
    (0x2000 ≤ n ∧ n ≤ 0x200A) ∨ n = 0x2028 ∨ n = 0x2029 ∨ n = 0x202F ∨
    n = 0x205F ∨ n = 0x3000

def trimL (l : List Char) : List Char :=
  ((l.dropWhile isWs).reverse.dropWhile isWs).reverse

/-- Rust `str::trim`. -/
def trimS (s : String) : String := String.mk (trimL s.data)

/-- Rust `str::split_whitespace` (auxiliary accumulator holds the current token
reversed). -/
def splitWsAux : List Char → List Char → List String
  | acc, [] => if acc.isEmpty then [] else [String.mk acc.reverse]
  | acc, c :: rest =>
    if isWs c then
      if acc.isEmpty then splitWsAux [] rest
      else String.mk acc.reverse :: splitWsAux [] rest
    else splitWsAux (c :: acc) rest

def splitWhitespaceS (s : String) : List String := splitWsAux [] s.data

/-- Rust `str::split(sep)` for a single-character separator: keeps empty fields,
and the empty string yields one empty field. -/
def splitOnAux (sep : Char) : List Char → List Char → List String
  | acc, [] => [String.mk acc.reverse]
  | acc, c :: rest =>
    if c = sep then String.mk acc.reverse :: splitOnAux sep [] rest
    else splitOnAux sep (c :: acc) rest

def splitOnCharS (sep : Char) (s : String) : List String := splitOnAux sep [] s.data

/-- Rust `str::replace(from, to)` where both are single characters. -/
def replaceChar (s : String) (from_ to_ : Char) : String :=
  String.mk (s.data.map fun c => if c = from_ then to_ else c)

/-- Rust `str::strip_prefix`. -/
def stripPre (s pre : String) : Option String :=
  if pre.data.isPrefixOf s.data then some (String.mk (s.data.drop pre.data.length))
  else none

/-- Rust `String::join(" ")` over collected tokens. -/
def joinSpace : List String → String
  | [] => ""
  | [s] => s
  | s :: rest => s ++ " " ++ joinSpace rest

/-- Rust `u8::eq_ignore_ascii_case` lowering, per character. -/
def asciiLower (c : Char) : Char :=
  if 'A' ≤ c ∧ c ≤ 'Z' then Char.ofNat (c.toNat + 32) else c

/-- Rust `str::eq_ignore_ascii_case`. -/
def eqIgnoreAsciiCase (a b : String) : Bool :=
  a.data.map asciiLower == b.data.map asciiLower

/-! ### Decimal parser (`parse_decimal`) -/

def digitsToNat (l : List Char) : Nat :=
  l.foldl (fun acc c => acc * 10 + (c.toNat - '0'.toNat)) 0

def allDigits (l : List Char) : Bool := !l.isEmpty && l.all Char.isDigit

/-- Split a char list at the first occurrence of a character satisfying `p`,
returning the part before and the part after the split character. -/
def splitAtFirst (p : Char → Bool) : List Char → Option (List Char × List Char)
  | [] => none
  | c :: rest =>
    if p c then some ([], rest)
    else match splitAtFirst p rest with
      | some (b, a) => some (c :: b, a)
      | none => none

/-- Mantissa of Rust's float grammar: `Digit+ | Digit+ '.' Digit* | Digit* '.' Digit+`,
returned as the pair `(n, k)` with exact value `n / 10^k`. -/
def mantissaVal (mant : List Char) : Option (ℕ × ℕ) :=
  match splitAtFirst (· = '.') mant with
  | none => if allDigits mant then some (digitsToNat mant, 0) else none
  | some (ip, fp) =>
    if ip.all Char.isDigit ∧ fp.all Char.isDigit ∧ ¬(ip.isEmpty ∧ fp.isEmpty) then
      some (digitsToNat ip * 10 ^ fp.length + digitsToNat fp, fp.length)
    else none

/-- The exact rational `sgn * n * 10^t` (`mkRat` keeps every operation
kernel-reducible, unlike the rational field operations). -/
def scaledVal (sgn : ℤ) (n : ℕ) (t : ℤ) : ℚ :=
  if 0 ≤ t then mkRat (sgn * n * 10 ^ t.toNat) 1 else mkRat (sgn * n) (10 ^ (-t).toNat)

/-- The value of a parsed `f64` literal: an exact rational for the number arm
(real-valued, with no rounding), or one of the non-finite values of the
case-insensitive `inf`/`infinity`/`nan` keyword arms (the sign of a `nan` is
unobservable in the source's output and is not kept). -/
inductive F64Val where
  | finite (q : ℚ)
  | inf
  | negInf
  | nan
deriving DecidableEq, Repr

/-- Rust `f64::from_str`: optional sign, then either one of the case-insensitive
keywords `inf`/`infinity`/`nan` or a mantissa with an optional `e`/`E` exponent. -/
def parseF64 (s : String) : Option F64Val :=
  let (sgn, cs) :=
    match s.data with
    | '+' :: r => ((1 : ℤ), r)
    | '-' :: r => ((-1 : ℤ), r)
    | r => ((1 : ℤ), r)
  let lower := cs.map asciiLower
  if lower = "inf".data ∨ lower = "infinity".data then
    some (if sgn = 1 then F64Val.inf else F64Val.negInf)
  else if lower = "nan".data then some F64Val.nan
  else
    match splitAtFirst (fun c => c = 'e' ∨ c = 'E') cs with
    | none =>
      (mantissaVal cs).map fun (n, k) => F64Val.finite (scaledVal sgn n (-(k : ℤ)))
    | some (mant, ecs) =>
      match mantissaVal mant with
      | none => none
      | some (n, k) =>
        let (esgn, ed) :=
          match ecs with
          | '+' :: r => ((1 : ℤ), r)
          | '-' :: r => ((-1 : ℤ), r)
          | r => ((1 : ℤ), r)
        if allDigits ed then
          some (F64Val.finite (scaledVal sgn n (esgn * (digitsToNat ed : ℤ) - (k : ℤ))))
        else none

/-- `parse_decimal` from the source: trim, comma→dot, standard float parse. -/
def parse_decimal (input : String) : Option F64Val :=
  let normalized := replaceChar (trimS input) ',' '.'
  parseF64 normalized

example : parse_decimal "78.4" = some (.finite (mkRat 784 10)) := by rfl
example : parse_decimal "5,8" = some (.finite (mkRat 58 10)) := by rfl
example : parse_decimal "abc" = none := by decide
example : parse_decimal " -1e2 " = some (.finite (mkRat (-100) 1)) := by rfl
example : parse_decimal "inf" = some .inf := by decide
example : parse_decimal "-INFINITY" = some .negInf := by decide
example : parse_decimal "NaN" = some .nan := by decide
example : parse_decimal ("78.4" ++ String.mk [Char.ofNat 0x0C]) =
    some (.finite (mkRat 784 10)) := by rfl

/-! ### Integer parsers (Rust `u32::from_str`, `i32::from_str`) -/

/-- Rust `str::parse::<u32>()`: optional `+`, one or more digits, overflow is an
error. -/
def parseU32 (s : String) : Option ℕ :=
  let cs := match s.data with
    | '+' :: r => r
    | r => r
  if allDigits cs then
    let n := digitsToNat cs
    if n < 2 ^ 32 then some n else none
  else none

/-- Rust `str::parse::<i32>()`: optional sign, one or more digits, overflow is an
error. -/
def parseI32 (s : String) : Option ℤ :=
  let (sgn, cs) := match s.data with
    | '+' :: r => ((1 : ℤ), r)
    | '-' :: r => ((-1 : ℤ), r)
    | r => ((1 : ℤ), r)
  if allDigits cs then
    let v := sgn * (digitsToNat cs : ℤ)
    if -(2 ^ 31) ≤ v ∧ v < 2 ^ 31 then some v else none
  else none

/-! ### Flexible date/time parser (`parse_flexible_datetime`)

`chrono::NaiveDate::from_ymd_opt` is the proleptic Gregorian calendar restricted to
chrono's year range `MIN_YEAR ..= MAX_YEAR` (`i32::MIN >> 13` to `i32::MAX >> 13`);
`chrono::NaiveTime::from_hms_opt` checks component bounds.  The resolution of the
naive civil date-time into a `DateTime<Local>` (and its `to_rfc3339` rendering) is
kept abstract as a `resolve` argument. -/

def isLeapYear (y : ℤ) : Bool := y % 4 = 0 ∧ (y % 100 ≠ 0 ∨ y % 400 = 0)

def daysInMonth (y : ℤ) (m : ℕ) : ℕ :=
  if m = 1 then 31
  else if m = 2 then (if isLeapYear y then 29 else 28)
  else if m = 3 then 31
  else if m = 4 then 30
  else if m = 5 then 31
  else if m = 6 then 30
  else if m = 7 then 31
  else if m = 8 then 31
  else if m = 9 then 30
  else if m = 10 then 31
  else if m = 11 then 30
  else if m = 12 then 31
  else 0

/-- `chrono::NaiveDate::from_ymd_opt`, as a validity test for the `(y, m, d)`
triple. -/
def from_ymd_opt (y : ℤ) (m d : ℕ) : Option (ℤ × ℕ × ℕ) :=
  if -262144 ≤ y ∧ y ≤ 262143 ∧ 1 ≤ m ∧ m ≤ 12 ∧ 1 ≤ d ∧ d ≤ daysInMonth y m then
    some (y, m, d)
  else none

/-- `chrono::NaiveTime::from_hms_opt`, as a validity test. -/
def from_hms_opt (h mi s : ℕ) : Option (ℕ × ℕ × ℕ) :=
  if h ≤ 23 ∧ mi ≤ 59 ∧ s ≤ 59 then some (h, mi, s) else none

/-- A naive civil date-time (`chrono::NaiveDateTime` of the source, seconds always
0 here). -/
structure CivilDateTime where
  year : ℤ
  month : ℕ
  day : ℕ
  hour : ℕ
  minute : ℕ
  second : ℕ
deriving DecidableEq, Repr

/-- `chrono::LocalResult`; `ambiguous e l` carries the earliest candidate first,
as chrono documents `LocalResult::Ambiguous(earliest, latest)`. -/
inductive LocalResult (α : Type) where
  | single (dt : α)
  | ambiguous (earliest latest : α)
  | noneR
deriving DecidableEq, Repr

/-- The `let (year, month, day) = if date_parts.len() == 2 { .. } else { .. }` block
of `parse_flexible_datetime`: 2 fields are `month/day` with the current year, 3
fields are `year/month/day` with a `0..=99` year meaning `2000 + year`. -/
def parse_date_fields (nowYear : ℤ) (date_parts : List String) : Option (ℤ × ℕ × ℕ) :=
  match date_parts with
  | [ms, ds] =>
    match parseU32 ms, parseU32 ds with
    | some month, some day => some (nowYear, month, day)
    | _, _ => none
  | [ys, ms, ds] =>
    match parseI32 ys, parseU32 ms, parseU32 ds with
    | some year_raw, some month, some day =>
      some (if 0 ≤ year_raw ∧ year_raw ≤ 99 then 2000 + year_raw else year_raw, month, day)
    | _, _, _ => none
  | _ => none

/-- The `let normalized` of `parse_flexible_datetime`: trim and turn `-` and `.`
into `/`. -/
def normalizedInput (input : String) : String :=
  replaceChar (replaceChar (trimS input) '-' '/') '.' '/'

/-- Everything of `parse_flexible_datetime` up to the civil value `naive`:
normalize `-`/`.` to `/`, exactly two whitespace tokens, 2 or 3 date fields, exactly
2 time fields, numeric hour/minute with `hour ≤ 23`, `minute ≤ 59`, then
`from_ymd_opt` and `from_hms_opt`. -/
def parse_flexible_naive (nowYear : ℤ) (input : String) : Option CivilDateTime :=
  match splitWhitespaceS (normalizedInput input) with
  | [date_part, time_part] =>
    let date_parts := splitOnCharS '/' date_part
    if date_parts.length = 2 ∨ date_parts.length = 3 then
      match splitOnCharS ':' time_part with
      | [hs, ms] =>
        match parseU32 hs, parseU32 ms with
        | some hour, some minute =>
          if hour > 23 ∨ minute > 59 then none
          else
            match parse_date_fields nowYear date_parts with
            | none => none
            | some (y, mo, da) =>
              match from_ymd_opt y mo da with
              | none => none
              | some _ =>
                match from_hms_opt hour minute 0 with
                | none => none
                | some _ => some ⟨y, mo, da, hour, minute, 0⟩
        | _, _ => none
      | _ => none
    else none
  | _ => none

/-- `parse_flexible_datetime`: civil parsing followed by the source's match on
`Local.from_local_datetime(&naive)` — `Single` and `Ambiguous` take the first
(earliest) candidate, `None` fails. -/
def parse_flexible_datetime {α : Type} (resolve : CivilDateTime → LocalResult α)
    (nowYear : ℤ) (input : String) : Option α :=
  match parse_flexible_naive nowYear input with
  | none => none
  | some naive =>
    match resolve naive with
    | .single dt => some dt
    | .ambiguous dt _ => some dt
    | .noneR => none

/-- The identity resolver: every civil time exists uniquely (used to state claims
about the civil component of the parse). -/
def resolveCivil : CivilDateTime → LocalResult CivilDateTime := fun dt => .single dt

example : parse_flexible_naive 2024 "2/1 9:05" = some ⟨2024, 2, 1, 9, 5, 0⟩ := by decide
example : parse_flexible_naive 2024 "2024-02-01 09:05" = some ⟨2024, 2, 1, 9, 5, 0⟩ := by decide
example : parse_flexible_naive 2024 "2/30 9:05" = none := by decide
example : parse_flexible_naive 2024 "2/1 9:05 x" = none := by decide

/-! ### Note splitting and the glucose payload parser -/

/-- One `strip_prefix(' ')` application: the at-most-one leading space stripped
from a note. -/
def stripOneSpace : List Char → List Char
  | ' ' :: rest => rest
  | l => l

/-- `split_note`: split at the first `@`; the part before is trimmed, the part
after loses at most one leading space and becomes the note unless it is then
empty. -/
def split_note (input : String) : String × Option String :=
  match splitAtFirst (· = '@') input.data with
  | none => (trimS input, none)
  | some (before, afterAt) =>
    let beforeS := trimS (String.mk before)
    let note := stripOneSpace afterAt
    if note.isEmpty then (beforeS, none) else (beforeS, some (String.mk note))

inductive GlucoseTag where
  | beforeMeal
  | afterMeal
deriving DecidableEq, Repr

def GlucoseTag.as_csv_tag : GlucoseTag → String
  | .beforeMeal => "before_meal"
  | .afterMeal => "after_meal"

def msgMissingValue : String := "Missing glucose value"
def msgInvalidValue : String := "Invalid glucose value. Example: 5.8"
def msgInvalidDateTime : String :=
  "Invalid date/time. Examples: 2/1 9:05, 02/01 09:05, 24/2/1 9:05, 2024/2/1 9:05"

/-- `parse_glucose_payload`: split off the note, take the first whitespace token as
the decimal value, and require the joined remaining tokens (if any) to parse as a
date-time, which is stored via the resolver (`to_rfc3339` in the source). -/
def parse_glucose_payload (resolve : CivilDateTime → LocalResult String) (nowYear : ℤ)
    (payload : String) : Except String (F64Val × Option String × Option String) :=
  let (without_note, note) := split_note payload
  match splitWhitespaceS without_note with
  | [] => .error msgMissingValue
  | value_raw :: parts_rest =>
    match parse_decimal value_raw with
    | none => .error msgInvalidValue
    | some value =>
      let rest := joinSpace parts_rest
      if trimS rest = "" then .ok (value, none, note)
      else
        match parse_flexible_datetime resolve nowYear rest with
        | none => .error msgInvalidDateTime
        | some dt => .ok (value, some dt, note)

/-! ### Command and button parsers -/

def BTN_GLUCOSE_BEFORE_MEAL : String := "🩸 Glucose: Before meal"
def BTN_GLUCOSE_AFTER_MEAL : String := "🩸 Glucose: After meal"
def BTN_WEIGHT : String := "⚖️ Weight"
def BTN_SHOW_MENU : String := "📋 Show menu"
def MED_BUTTON_PFX : String := "💊 "

/-- One iteration of the `mappings` loop of `parse_glucose_add_command` /
`parse_addmed_command`: exact command, or command plus a space and a trimmed
payload. -/
def cmd_try (text cmd : String) : Option String :=
  if text = cmd then some ""
  else
    match stripPre text (cmd ++ " ") with
    | some rest => some (trimS rest)
    | none => none

def parse_glucose_add_command (text : String) : Option (GlucoseTag × String) :=
  match cmd_try text "/addgb" with
  | some rest => some (.beforeMeal, rest)
  | none =>
  match cmd_try text "/add_glucose_before" with
  | some rest => some (.beforeMeal, rest)
  | none =>
  match cmd_try text "/addga" with
  | some rest => some (.afterMeal, rest)
  | none =>
  match cmd_try text "/add_glucose_after" with
  | some rest => some (.afterMeal, rest)
  | none => none

def parse_addmed_command (text : String) : Option String :=
  match cmd_try text "/addmed" with
  | some rest => some rest
  | none =>
  match cmd_try text "/add_medication" with
  | some rest => some rest
  | none => none

def parse_medication_button (text : String) : Option String :=
  (stripPre text MED_BUTTON_PFX).map trimS

def normalize_medication_name (name : String) : String :=
  joinSpace (splitWhitespaceS name)

example : parse_glucose_add_command "/addgb 5.8 @x" = some (.beforeMeal, "5.8 @x") := by decide
example : parse_glucose_add_command "abc" = none := by decide
example : normalize_medication_name "  Aspirin   forte " = "Aspirin forte" := by decide

/-! ### Store model: pending map and append-only files

The file system becomes an association list from per-chat file keys to lists of
lines; an absent key is a file that does not exist.  CSV data lines are structured
(`Line`), medication-list lines are raw strings. -/

abbrev ChatIdT := ℤ

inductive PendingEntry where
  | glucoseBeforeMeal
  | glucoseAfterMeal
  | weight
deriving DecidableEq, Repr

inductive FileKey where
  | glucoseCsv (chat : ChatIdT)
  | weightCsv (chat : ChatIdT)
  | medicationLog (chat : ChatIdT)
deriving DecidableEq, Repr

inductive Line where
  | header (h : String)
  | glucoseData (ts : String) (chat : ChatIdT) (tag : GlucoseTag) (value : F64Val)
      (note : Option String)
  | weightData (ts : String) (chat : ChatIdT) (value : F64Val)
  | medlogData (ts : String) (chat : ChatIdT) (name : String)
deriving DecidableEq, Repr

def alistGet {κ α : Type} [DecidableEq κ] : List (κ × α) → κ → Option α
  | [], _ => none
  | (k, v) :: rest, key => if k = key then some v else alistGet rest key

def alistSet {κ α : Type} [DecidableEq κ] : List (κ × α) → κ → α → List (κ × α)
  | [], key, v => [(key, v)]
  | (k, w) :: rest, key, v =>
    if k = key then (key, v) :: rest else (k, w) :: alistSet rest key v

def alistRemove {κ α : Type} [DecidableEq κ] : List (κ × α) → κ → List (κ × α)
  | [], _ => []
  | (k, w) :: rest, key =>
    if k = key then rest else (k, w) :: alistRemove rest key

/-- The whole mutable world of the bot: the in-memory pending map and allow-list
of `AppState`, the CSV record files, and the per-chat `medications.txt` files. -/
structure Store where
  pending : List (ChatIdT × PendingEntry)
  allowed : List ChatIdT
  files : List (FileKey × List Line)
  meds : List (ChatIdT × List String)
deriving DecidableEq, Repr

abbrev Files := List (FileKey × List Line)

/-- `append_line_if_needed`: create the file holding just the header line when the
file does not exist (both branches of the source's `.txt` test push the same
newline, so creation is identical for every extension). -/
def append_line_if_needed (files : Files) (key : FileKey) (header : String) : Files :=
  match alistGet files key with
  | none => alistSet files key [Line.header header]
  | some _ => files

/-- `append_csv_line`: append one line, creating the file (without a header) when
absent, exactly as `OpenOptions::new().create(true).append(true)` does. -/
def append_csv_line (files : Files) (key : FileKey) (line : Line) : Files :=
  alistSet files key ((alistGet files key).getD [] ++ [line])

def glucoseHeader : String := "timestamp,chat_id,tag,value_mmol_l,note"
def weightHeader : String := "timestamp,chat_id,value_kg"
def medlogHeader : String := "timestamp,chat_id,medication"

/-- `append_glucose_csv` (`nowTs` stands for `Utc::now().to_rfc3339()`). -/
def append_glucose_csv (nowTs : String) (files : Files) (chat : ChatIdT)
    (tag : GlucoseTag) (value : F64Val) (timestamp : Option String) (note : Option String) :
    Files :=
  let files := append_line_if_needed files (.glucoseCsv chat) glucoseHeader
  let ts := timestamp.getD nowTs
  append_csv_line files (.glucoseCsv chat) (.glucoseData ts chat tag value note)

/-- `append_measurement_csv`; the source's inner `match` with its `unreachable!()`
arm is flattened into the two glucose arms. -/
def append_measurement_csv (nowTs : String) (files : Files) (chat : ChatIdT)
    (pending : PendingEntry) (value : F64Val) : Files :=
  match pending with
  | .glucoseBeforeMeal => append_glucose_csv nowTs files chat .beforeMeal value none none
  | .glucoseAfterMeal => append_glucose_csv nowTs files chat .afterMeal value none none
  | .weight =>
    let files := append_line_if_needed files (.weightCsv chat) weightHeader
    append_csv_line files (.weightCsv chat) (.weightData nowTs chat value)

def append_medication_log_csv (nowTs : String) (files : Files) (chat : ChatIdT)
    (medication : String) : Files :=
  let files := append_line_if_needed files (.medicationLog chat) medlogHeader
  append_csv_line files (.medicationLog chat) (.medlogData nowTs chat medication)

/-! ### Medication registry -/

/-- The loop body of `load_medications`: skip blank-after-normalization lines and
case-insensitive duplicates of names already collected. -/
def load_medications_loop (acc : List String) : List String → List String
  | [] => acc
  | line :: rest =>
    let name := normalize_medication_name line
    if name = "" then load_medications_loop acc rest
    else if acc.any (fun existing => eqIgnoreAsciiCase existing name) then
      load_medications_loop acc rest
    else load_medications_loop (acc ++ [name]) rest

/-- `load_medications`: an absent `medications.txt` is the empty list, otherwise
re-read and deduplicate the file's lines on every call. -/
def load_medications (store : Store) (chat : ChatIdT) : List String :=
  match alistGet store.meds chat with
  | none => []
  | some content => load_medications_loop [] content

def medication_exists (store : Store) (chat : ChatIdT) (name : String) : Bool :=
  let normalized := normalize_medication_name name
  (load_medications store chat).any fun existing => eqIgnoreAsciiCase existing normalized

/-- `append_medication_name`: a fresh file receives just the name, an existing one
gets the name appended as one more line. -/
def append_medication_name (store : Store) (chat : ChatIdT) (name : String) : Store :=
  match alistGet store.meds chat with
  | none => { store with meds := alistSet store.meds chat [name] }
  | some content => { store with meds := alistSet store.meds chat (content ++ [name]) }

/-- `add_medication`: normalize, reject empty or already-present (case-insensitive)
names returning `false`, otherwise persist the normalized name and return `true`. -/
def add_medication (store : Store) (chat : ChatIdT) (name : String) : Bool × Store :=
  let normalized := normalize_medication_name name
  if normalized = "" then (false, store)
  else
    let medications := load_medications store chat
    if medications.any (fun existing => eqIgnoreAsciiCase existing normalized) then
      (false, store)
    else (true, append_medication_name store chat normalized)

/-! ### Pending-entry state -/

def set_pending (store : Store) (chat : ChatIdT) (pending : PendingEntry) : Store :=
  { store with pending := alistSet store.pending chat pending }

def get_pending (store : Store) (chat : ChatIdT) : Option PendingEntry :=
  alistGet store.pending chat

def clear_pending (store : Store) (chat : ChatIdT) : Store :=
  { store with pending := alistRemove store.pending chat }

/-! ### The message router (`handle_message`)

Replies are collected as the list of message texts sent to the chat (the
accompanying keyboard carries no state and is not modelled); `nowTs` stands for
`Utc::now().to_rfc3339()`, `nowYear` for `Local::now().year()`, and `resolve` for
the local-timezone resolution composed with `to_rfc3339`. -/

structure Msg where
  chat : ChatIdT
  text : Option String

def help_text : String :=
  "Commands:\n/menu - show menu buttons\n/help - show this help\n/addmed <name> - add medication button\n/addgb <value> [date time] [@note] - add glucose before meal\n/addga <value> [date time] [@note] - add glucose after meal\n\nDate/time examples:\n- 2/1 9:05\n- 02/01 09:05\n- 24/2/1 9:05\n- 2024/2/1 9:05\nIf year is omitted, current year is used.\nNote example: @before breakfast\n\nWarning: data is stored as plain text CSV/TXT and is not encrypted by this bot."

def msgUsageGlucose : String :=
  "Usage:\n/addgb <value> [MM/DD hh:mm] [@note]\n/addga <value> [MM/DD hh:mm] [@note]"
def msgUsageAddmed : String := "Usage: /addmed <medication name>"
def msgMenu : String :=
  "Diabetes diary menu:\n- Glucose before meal\n- Glucose after meal\n- Weight\n- Medications\nUse /addmed <name> to add medication button.\nUse /addgb or /addga for direct glucose entry with optional date/time."
def msgPromptGB : String :=
  "Enter glucose: <value> [date time] [@note], e.g. 5.8 2/1 9:05 @before breakfast"
def msgPromptGA : String :=
  "Enter glucose: <value> [date time] [@note], e.g. 7.2 2/1 11:00 @after lunch"
def msgPromptWeight : String := "Enter weight value (kg), for example: 78.4"
def msgGlucoseSaved : String := "Glucose entry saved ✅"
def msgSaved : String := "Saved ✅"
def msgCouldNotParseNumber : String :=
  "Could not parse number. Use format like 78.4 (dot or comma)."
def msgUnknownMedication : String := "Unknown medication. Use /addmed <name> first."
def msgFallback : String :=
  "Choose an action from menu. Type /menu to show buttons or /addmed <name>."

/-- `handle_message`, with the source's early returns written as nested
alternatives in the same order: allow-list gate, text presence, `/help`, direct
glucose command, `/addmed`, menu/button literals, medication button, pending
free-text continuation, fallback. -/
def handle_message (resolve : CivilDateTime → LocalResult String) (nowYear : ℤ)
    (nowTs : String) (store : Store) (msg : Msg) : List String × Store :=
  let chat_id := msg.chat
  if store.allowed.contains chat_id then
    match msg.text with
    | none => ([], store)
    | some rawText =>
      let text := trimS rawText
      if text = "/help" then ([help_text], store)
      else
        match parse_glucose_add_command text with
        | some (tag, payload0) =>
          let payload := trimS payload0
          if payload = "" then ([msgUsageGlucose], store)
          else
            match parse_glucose_payload resolve nowYear payload with
            | .error emsg => ([emsg], store)
            | .ok (value, timestamp, note) =>
              ([msgGlucoseSaved],
                { store with
                  files := append_glucose_csv nowTs store.files chat_id tag value
                    timestamp note })
        | none =>
          match parse_addmed_command text with
          | some name =>
            if name = "" then ([msgUsageAddmed], store)
            else
              let (added, store') := add_medication store chat_id name
              if added then (["Medication added: " ++ name], store')
              else (["Medication already exists: " ++ name], store')
          | none =>
            if text = "/start" ∨ text = "/menu" ∨ text = BTN_SHOW_MENU then
              ([msgMenu], store)
            else if text = BTN_GLUCOSE_BEFORE_MEAL then
              ([msgPromptGB], set_pending store chat_id .glucoseBeforeMeal)
            else if text = BTN_GLUCOSE_AFTER_MEAL then
              ([msgPromptGA], set_pending store chat_id .glucoseAfterMeal)
            else if text = BTN_WEIGHT then
              ([msgPromptWeight], set_pending store chat_id .weight)
            else
              match parse_medication_button text with
              | some medication_name =>
                if medication_exists store chat_id medication_name then
                  (["Medication usage saved ✅ (" ++ medication_name ++ ")"],
                    { store with
                      files := append_medication_log_csv nowTs store.files chat_id
                        medication_name })
                else ([msgUnknownMedication], store)
              | none =>
                match get_pending store chat_id with
                | some PendingEntry.glucoseBeforeMeal =>
                  match parse_glucose_payload resolve nowYear text with
                  | .ok (value, timestamp, note) =>
                    ([msgSaved],
                      clear_pending
                        { store with
                          files := append_glucose_csv nowTs store.files chat_id
                            .beforeMeal value timestamp note }
                        chat_id)
                  | .error emsg => ([emsg], store)
                | some PendingEntry.glucoseAfterMeal =>
                  match parse_glucose_payload resolve nowYear text with
                  | .ok (value, timestamp, note) =>
                    ([msgSaved],
                      clear_pending
                        { store with
                          files := append_glucose_csv nowTs store.files chat_id
                            .afterMeal value timestamp note }
                        chat_id)
                  | .error emsg => ([emsg], store)
                | some PendingEntry.weight =>
                  match parse_decimal text with
                  | some value =>
                    ([msgSaved],
                      clear_pending
                        { store with
                          files := append_measurement_csv nowTs store.files chat_id
                            .weight value }
                        chat_id)
                  | none => ([msgCouldNotParseNumber], store)
                | none => ([msgFallback], store)
  else ([], store)

/-! ### Association-list lemmas -/

theorem alistGet_set_self {κ α : Type} [DecidableEq κ] (m : List (κ × α)) (k : κ)
    (v : α) : alistGet (alistSet m k v) k = some v := by
  induction m with
  | nil => simp [alistGet, alistSet]
  | cons hd tl ih =>
    obtain ⟨k₀, w⟩ := hd
    by_cases h0 : k₀ = k <;> simp [alistGet, alistSet, h0, ih]

theorem alistGet_set_other {κ α : Type} [DecidableEq κ] (m : List (κ × α))
    (k k' : κ) (v : α) (h : k' ≠ k) :
    alistGet (alistSet m k v) k' = alistGet m k' := by
  induction m with
  | nil => simp [alistGet, alistSet, Ne.symm h]
  | cons hd tl ih =>
    obtain ⟨k₀, w⟩ := hd
    by_cases h0 : k₀ = k
    · subst h0
      simp [alistGet, alistSet, Ne.symm h]
    · simp [alistGet, alistSet, h0, ih]

theorem alistGet_eq_none_of_not_mem {κ α : Type} [DecidableEq κ]
    {m : List (κ × α)} {k : κ} (h : k ∉ m.map Prod.fst) : alistGet m k = none := by
  induction m with
  | nil => rfl
  | cons hd tl ih =>
    obtain ⟨k₀, w⟩ := hd
    simp only [List.map_cons, List.mem_cons] at h
    push_neg at h
    simp [alistGet, Ne.symm h.1, ih h.2]

theorem alistGet_remove_self_of_nodup {κ α : Type} [DecidableEq κ]
    (m : List (κ × α)) (k : κ) (h : (m.map Prod.fst).Nodup) :
    alistGet (alistRemove m k) k = none := by
  induction m with
  | nil => rfl
  | cons hd tl ih =>
    obtain ⟨k₀, w⟩ := hd
    simp only [List.map_cons, List.nodup_cons] at h
    by_cases h0 : k₀ = k
    · subst h0
      simpa [alistRemove] using alistGet_eq_none_of_not_mem h.1
    · simp [alistRemove, alistGet, h0, ih h.2]

theorem alistGet_remove_other {κ α : Type} [DecidableEq κ] (m : List (κ × α))
    (k k' : κ) (h : k' ≠ k) : alistGet (alistRemove m k) k' = alistGet m k' := by
  induction m with
  | nil => rfl
  | cons hd tl ih =>
    obtain ⟨k₀, w⟩ := hd
    by_cases h0 : k₀ = k
    · subst h0
      simp [alistRemove, alistGet, Ne.symm h]
    · simp [alistRemove, alistGet, h0, ih]

/-! ### Record-store lemmas -/

/-- The contents of a file absent before the append: just the header. -/
def withHeader (old : Option (List Line)) (header : String) : List Line :=
  match old with
  | none => [Line.header header]
  | some ls => ls

/-- One `append_line_if_needed`-then-`append_csv_line` round: the target file ends
with exactly one new data line after its previous lines (a lone header line for a
previously absent file), and every other file is untouched. -/
theorem append_file_spec (files : Files) (key : FileKey) (header : String)
    (line : Line) :
    alistGet (append_csv_line (append_line_if_needed files key header) key line)
        key = some (withHeader (alistGet files key) header ++ [line]) ∧
    ∀ k, k ≠ key →
      alistGet (append_csv_line (append_line_if_needed files key header) key line)
          k = alistGet files k := by
  unfold append_line_if_needed append_csv_line withHeader
  cases h : alistGet files key with
  | none =>
    refine ⟨?_, fun k hk => ?_⟩
    · simp [h, alistGet_set_self]
    · simp [h, alistGet_set_other _ _ _ _ hk]
  | some ls =>
    refine ⟨?_, fun k hk => ?_⟩
    · simp [h, alistGet_set_self]
    · simp [h, alistGet_set_other _ _ _ _ hk]

/-- The glucose-file contents after one `append_glucose_csv`. -/
theorem append_glucose_csv_get (t : String) (files : Files) (chat : ChatIdT)
    (tag : GlucoseTag) (v : F64Val) (ts : Option String) (n : Option String) :
    alistGet (append_glucose_csv t files chat tag v ts n) (FileKey.glucoseCsv chat) =
      some (withHeader (alistGet files (FileKey.glucoseCsv chat)) glucoseHeader ++
        [Line.glucoseData (ts.getD t) chat tag v n]) := by
  simp only [append_glucose_csv]
  exact (append_file_spec files (FileKey.glucoseCsv chat) glucoseHeader
    (.glucoseData (ts.getD t) chat tag v n)).1

/-! ### Claims -/

/-- C2: a message from a chat that is not in the configured allow-list produces no
reply and leaves the whole state — pending map, record files, medication files —
unchanged. -/
theorem C2_allowlist_gate_silent_drop (resolve : CivilDateTime → LocalResult String)
    (nowYear : ℤ) (nowTs : String) (store : Store) (msg : Msg)
    (h : store.allowed.contains msg.chat = false) :
    handle_message resolve nowYear nowTs store msg = ([], store) := by
  unfold handle_message
  have h' : msg.chat ∉ store.allowed := by simpa using h
  simp [h']

theorem C2_allowlist_gate_silent_drop_witness :
    ((⟨[(2, .weight)], [1], [], []⟩ : Store).allowed.contains (2 : ChatIdT) = false) ∧
    handle_message (fun _ => .noneR) 2024 "TS" ⟨[(2, .weight)], [1], [], []⟩
      ⟨2, some "/menu"⟩ = ([], ⟨[(2, .weight)], [1], [], []⟩) :=
  ⟨by decide,
    C2_allowlist_gate_silent_drop (fun _ => .noneR) 2024 "TS"
      ⟨[(2, .weight)], [1], [], []⟩ ⟨2, some "/menu"⟩ (by decide)⟩

/-- C8: every append round writes the fixed header first when the file is absent
and then adds exactly one data line at the end, never rewriting or reordering
existing lines or touching other files; consequently three glucose appends to a
fresh store leave exactly one header line followed by the three data lines in call
order. -/
theorem C8_append_only_header_once :
    (∀ (files : Files) (key : FileKey) (header : String) (line : Line),
      alistGet (append_csv_line (append_line_if_needed files key header) key line)
          key = some (withHeader (alistGet files key) header ++ [line]) ∧
      ∀ k, k ≠ key →
        alistGet (append_csv_line (append_line_if_needed files key header) key
          line) k = alistGet files k) ∧
    (∀ (files : Files) (chat : ChatIdT) (t₁ t₂ t₃ : String)
      (tag₁ tag₂ tag₃ : GlucoseTag) (v₁ v₂ v₃ : F64Val) (ts₁ ts₂ ts₃ : Option String)
      (n₁ n₂ n₃ : Option String),
      alistGet files (FileKey.glucoseCsv chat) = none →
      alistGet
          (append_glucose_csv t₃
            (append_glucose_csv t₂
              (append_glucose_csv t₁ files chat tag₁ v₁ ts₁ n₁)
              chat tag₂ v₂ ts₂ n₂)
            chat tag₃ v₃ ts₃ n₃)
          (FileKey.glucoseCsv chat) =
        some [Line.header glucoseHeader,
          Line.glucoseData (ts₁.getD t₁) chat tag₁ v₁ n₁,
          Line.glucoseData (ts₂.getD t₂) chat tag₂ v₂ n₂,
          Line.glucoseData (ts₃.getD t₃) chat tag₃ v₃ n₃]) := by
  refine ⟨append_file_spec, ?_⟩
  intro files chat t₁ t₂ t₃ tag₁ tag₂ tag₃ v₁ v₂ v₃ ts₁ ts₂ ts₃ n₁ n₂ n₃ h0
  have g1 := append_glucose_csv_get t₁ files chat tag₁ v₁ ts₁ n₁
  rw [h0] at g1
  have g2 := append_glucose_csv_get t₂
    (append_glucose_csv t₁ files chat tag₁ v₁ ts₁ n₁) chat tag₂ v₂ ts₂ n₂
  rw [g1] at g2
  have g3 := append_glucose_csv_get t₃
    (append_glucose_csv t₂ (append_glucose_csv t₁ files chat tag₁ v₁ ts₁ n₁)
      chat tag₂ v₂ ts₂ n₂) chat tag₃ v₃ ts₃ n₃
  rw [g2] at g3
  simpa [withHeader] using g3

/-- The loop of `load_medications` only ever appends to its accumulator. -/
theorem load_medications_loop_append (rest : List String) :
    ∀ acc, ∃ t, load_medications_loop acc rest = acc ++ t := by
  induction rest with
  | nil => exact fun acc => ⟨[], by simp [load_medications_loop]⟩
  | cons line rest ih =>
    intro acc
    unfold load_medications_loop
    by_cases h0 : normalize_medication_name line = ""
    · simpa [h0] using ih acc
    · by_cases h1 :
        acc.any (fun existing => eqIgnoreAsciiCase existing
          (normalize_medication_name line)) = true
      · simpa [h0, h1] using ih acc
      · obtain ⟨t, ht⟩ := ih (acc ++ [normalize_medication_name line])
        exact ⟨normalize_medication_name line :: t, by simp [h0, h1, ht]⟩

theorem load_medications_loop_mem (rest : List String) (acc : List String)
    (m : String) (h : m ∈ acc) : m ∈ load_medications_loop acc rest := by
  obtain ⟨t, ht⟩ := load_medications_loop_append rest acc
  rw [ht]
  exact List.mem_append_left t h

/-- Invariant preservation of the `load_medications` loop: names stay nonempty
and pairwise distinct up to ASCII case. -/
theorem load_medications_loop_inv (rest : List String) :
    ∀ acc, (∀ n ∈ acc, n ≠ "") →
      acc.Pairwise (fun a b => eqIgnoreAsciiCase a b = false) →
      (∀ n ∈ load_medications_loop acc rest, n ≠ "") ∧
        (load_medications_loop acc rest).Pairwise
          (fun a b => eqIgnoreAsciiCase a b = false) := by
  induction rest with
  | nil => exact fun acc h1 h2 => ⟨h1, h2⟩
  | cons line rest ih =>
    intro acc h1 h2
    unfold load_medications_loop
    by_cases h0 : normalize_medication_name line = ""
    · simpa [h0] using ih acc h1 h2
    · by_cases hany :
        acc.any (fun existing => eqIgnoreAsciiCase existing
          (normalize_medication_name line)) = true
      · simpa [h0, hany] using ih acc h1 h2
      · have hall : ∀ a ∈ acc,
            eqIgnoreAsciiCase a (normalize_medication_name line) = false := by
          simpa [List.any_eq_true] using hany
        have h1' : ∀ n ∈ acc ++ [normalize_medication_name line], n ≠ "" := by
          intro n hn
          rcases List.mem_append.1 hn with h | h
          · exact h1 n h
          · simpa using (List.mem_singleton.1 h) ▸ h0
        have h2' : (acc ++ [normalize_medication_name line]).Pairwise
            (fun a b => eqIgnoreAsciiCase a b = false) := by
          refine List.pairwise_append.2 ⟨h2, List.pairwise_singleton _ _, ?_⟩
          intro a ha b hb
          rw [List.mem_singleton.1 hb]
          exact hall a ha
        simpa [h0, hany] using ih (acc ++ [normalize_medication_name line]) h1' h2'

/-- The kept names form a sublist (order of first occurrence preserved) of the
normalized file lines. -/
theorem load_medications_loop_sublist (rest : List String) :
    ∀ acc, ∃ t, load_medications_loop acc rest = acc ++ t ∧
      t.Sublist (rest.map normalize_medication_name) := by
  induction rest with
  | nil => exact fun acc => ⟨[], by simp [load_medications_loop]⟩
  | cons line rest ih =>
    intro acc
    unfold load_medications_loop
    by_cases h0 : normalize_medication_name line = ""
    · obtain ⟨t, ht, hs⟩ := ih acc
      exact ⟨t, by simpa [h0] using ht, hs.trans (List.sublist_cons_self _ _)⟩
    · by_cases hany :
        acc.any (fun existing => eqIgnoreAsciiCase existing
          (normalize_medication_name line)) = true
      · obtain ⟨t, ht, hs⟩ := ih acc
        exact ⟨t, by simpa [h0, hany] using ht,
          hs.trans (List.sublist_cons_self _ _)⟩
      · obtain ⟨t, ht, hs⟩ := ih (acc ++ [normalize_medication_name line])
        refine ⟨normalize_medication_name line :: t, ?_, ?_⟩
        · simp [h0, hany, ht]
        · simpa using hs.cons₂ (normalize_medication_name line)

theorem eqIgnoreAsciiCase_self (a : String) : eqIgnoreAsciiCase a a = true := by
  simp [eqIgnoreAsciiCase]

/-- Every nonblank file line keeps a case-insensitive representative in the
loaded list. -/
theorem load_medications_loop_complete (rest : List String) :
    ∀ acc line, line ∈ rest → normalize_medication_name line ≠ "" →
      ∃ m ∈ load_medications_loop acc rest,
        eqIgnoreAsciiCase m (normalize_medication_name line) = true := by
  induction rest with
  | nil => intro acc line h; cases h
  | cons hd rest ih =>
    intro acc line hmem hne
    unfold load_medications_loop
    by_cases h0 : normalize_medication_name hd = ""
    · rcases List.mem_cons.1 hmem with h | h
      · exact absurd (h ▸ h0) hne
      · simpa [h0] using ih acc line h hne
    · by_cases hany :
        acc.any (fun existing => eqIgnoreAsciiCase existing
          (normalize_medication_name hd)) = true
      · rcases List.mem_cons.1 hmem with h | h
        · subst h
          obtain ⟨m, hm, he⟩ := List.any_eq_true.1 hany
          exact ⟨m, by simpa [h0, hany] using
            load_medications_loop_mem rest acc m hm, by simpa using he⟩
        · simpa [h0, hany] using ih acc line h hne
      · rcases List.mem_cons.1 hmem with h | h
        · subst h
          refine ⟨normalize_medication_name line, ?_, eqIgnoreAsciiCase_self _⟩
          simpa [h0, hany] using
            load_medications_loop_mem rest (acc ++ [normalize_medication_name line])
              (normalize_medication_name line) (by simp)
        · simpa [h0, hany] using
            ih (acc ++ [normalize_medication_name hd]) line h hne

/-- C10: whatever the on-disk `medications.txt` holds, `load_medications` yields a
list with no empty names and no two names equal up to ASCII case, its order is the
order of first occurrence among the normalized file lines, and every nonblank line
is represented; so every query and keyboard sees a deduplicated list. -/
theorem C10_load_medications_dedup (store : Store) (chat : ChatIdT) :
    (∀ n ∈ load_medications store chat, n ≠ "") ∧
    (load_medications store chat).Pairwise
      (fun a b => eqIgnoreAsciiCase a b = false) ∧
    (load_medications store chat).Sublist
      (((alistGet store.meds chat).getD []).map normalize_medication_name) ∧
    (∀ line ∈ (alistGet store.meds chat).getD [],
      normalize_medication_name line ≠ "" →
      ∃ m ∈ load_medications store chat,
        eqIgnoreAsciiCase m (normalize_medication_name line) = true) := by
  unfold load_medications
  cases h : alistGet store.meds chat with
  | none => simp
  | some content =>
    obtain ⟨h1, h2⟩ :=
      load_medications_loop_inv content [] (by simp) (by simp)
    obtain ⟨t, ht, hs⟩ := load_medications_loop_sublist content []
    refine ⟨h1, h2, ?_, ?_⟩
    · simpa [ht] using hs
    · intro line hline hne
      exact load_medications_loop_complete content [] line (by simpa using hline) hne

theorem C10_load_medications_dedup_witness :
    ∃ m ∈ load_medications ⟨[], [1], [], [(1, ["", "Aspirin", "aspirin", " B  b "])]⟩ 1,
      eqIgnoreAsciiCase m (normalize_medication_name "aspirin") = true :=
  (C10_load_medications_dedup ⟨[], [1], [], [(1, ["", "Aspirin", "aspirin", " B  b "])]⟩
      1).2.2.2 "aspirin" (by decide) (by decide)

/-- The weight-file contents after one weight `append_measurement_csv`, plus the
frame on every other file. -/
theorem append_measurement_weight_get (nowTs : String) (files : Files)
    (chat : ChatIdT) (v : F64Val) :
    alistGet (append_measurement_csv nowTs files chat .weight v)
        (FileKey.weightCsv chat) =
      some (withHeader (alistGet files (FileKey.weightCsv chat)) weightHeader ++
        [Line.weightData nowTs chat v]) ∧
    ∀ k, k ≠ FileKey.weightCsv chat →
      alistGet (append_measurement_csv nowTs files chat .weight v) k =
        alistGet files k := by
  unfold append_measurement_csv
  exact append_file_spec files (FileKey.weightCsv chat) weightHeader
    (.weightData nowTs chat v)

/-- C1: for a chat with pending entry Weight, a free-text message that does not
parse as a decimal is answered with the corrective message and changes nothing,
while one that parses as a decimal appends exactly one weight record (header first
on a fresh file, all other files untouched) and clears the pending entry. -/
theorem C1_weight_pending_retry_then_save
    (resolve : CivilDateTime → LocalResult String) (nowYear : ℤ) (nowTs : String)
    (store : Store) (chat : ChatIdT) (rawText : String)
    (hnd : (store.pending.map Prod.fst).Nodup)
    (hallow : store.allowed.contains chat = true)
    (hpend : get_pending store chat = some .weight)
    (hhelp : trimS rawText ≠ "/help")
    (hglu : parse_glucose_add_command (trimS rawText) = none)
    (hmed : parse_addmed_command (trimS rawText) = none)
    (hstart : trimS rawText ≠ "/start")
    (hmenu : trimS rawText ≠ "/menu")
    (hshow : trimS rawText ≠ BTN_SHOW_MENU)
    (hgb : trimS rawText ≠ BTN_GLUCOSE_BEFORE_MEAL)
    (hga : trimS rawText ≠ BTN_GLUCOSE_AFTER_MEAL)
    (hw : trimS rawText ≠ BTN_WEIGHT)
    (hmb : parse_medication_button (trimS rawText) = none) :
    (parse_decimal (trimS rawText) = none →
      handle_message resolve nowYear nowTs store ⟨chat, some rawText⟩ =
        ([msgCouldNotParseNumber], store)) ∧
    (∀ value, parse_decimal (trimS rawText) = some value →
      (handle_message resolve nowYear nowTs store ⟨chat, some rawText⟩).1 =
        [msgSaved] ∧
      get_pending
        (handle_message resolve nowYear nowTs store ⟨chat, some rawText⟩).2 chat =
        none ∧
      alistGet
          (handle_message resolve nowYear nowTs store ⟨chat, some rawText⟩).2.files
          (FileKey.weightCsv chat) =
        some (withHeader (alistGet store.files (FileKey.weightCsv chat))
          weightHeader ++ [Line.weightData nowTs chat value]) ∧
      (∀ k, k ≠ FileKey.weightCsv chat →
        alistGet
            (handle_message resolve nowYear nowTs store ⟨chat, some rawText⟩).2.files
            k =
          alistGet store.files k) ∧
      (handle_message resolve nowYear nowTs store ⟨chat, some rawText⟩).2.meds =
        store.meds) := by
  have hmem : chat ∈ store.allowed := by simpa using hallow
  constructor
  · intro hdec
    unfold handle_message
    simp [hmem, hhelp, hglu, hmed, hstart, hmenu, hshow, hgb, hga, hw, hmb,
      hpend, hdec]
  · intro value hdec
    have hres : handle_message resolve nowYear nowTs store ⟨chat, some rawText⟩ =
        ([msgSaved],
          clear_pending
            { store with
              files := append_measurement_csv nowTs store.files chat .weight value }
            chat) := by
      unfold handle_message
      simp [hmem, hhelp, hglu, hmed, hstart, hmenu, hshow, hgb, hga, hw, hmb,
        hpend, hdec]
    rw [hres]
    refine ⟨rfl, ?_, ?_, ?_, rfl⟩
    · exact alistGet_remove_self_of_nodup store.pending chat hnd
    · exact (append_measurement_weight_get nowTs store.files chat value).1
    · exact (append_measurement_weight_get nowTs store.files chat value).2

theorem C1_weight_pending_retry_then_save_witness :
    handle_message (fun _ => LocalResult.single "RT") 2024 "TS"
      ⟨[(1, .weight)], [1], [], []⟩ ⟨1, some "abc"⟩ =
      ([msgCouldNotParseNumber], ⟨[(1, .weight)], [1], [], []⟩) ∧
    (handle_message (fun _ => LocalResult.single "RT") 2024 "TS"
      ⟨[(1, .weight)], [1], [], []⟩ ⟨1, some "78.4"⟩).1 = [msgSaved] ∧
    get_pending (handle_message (fun _ => LocalResult.single "RT") 2024 "TS"
      ⟨[(1, .weight)], [1], [], []⟩ ⟨1, some "78.4"⟩).2 1 = none :=
  have h := C1_weight_pending_retry_then_save (fun _ => LocalResult.single "RT")
    2024 "TS" ⟨[(1, .weight)], [1], [], []⟩ 1 "abc" (by decide) (by decide)
    (by decide) (by decide) (by decide) (by decide) (by decide) (by decide)
    (by decide) (by decide) (by decide) (by decide) (by decide)
  have h' := C1_weight_pending_retry_then_save (fun _ => LocalResult.single "RT")
    2024 "TS" ⟨[(1, .weight)], [1], [], []⟩ 1 "78.4" (by decide) (by decide)
    (by decide) (by decide) (by decide) (by decide) (by decide) (by decide)
    (by decide) (by decide) (by decide) (by decide) (by decide)
  ⟨h.1 (by decide), (h'.2 (F64Val.finite (mkRat 784 10)) (by rfl)).1,
    (h'.2 (F64Val.finite (mkRat 784 10)) (by rfl)).2.1⟩

theorem add_medication_pending (store : Store) (chat : ChatIdT) (name : String) :
    (add_medication store chat name).2.pending = store.pending := by
  unfold add_medication
  dsimp only
  split
  · rfl
  · split
    · rfl
    · unfold append_medication_name
      split <;> rfl

/-- Trichotomy of the router's effect on the pending map: every branch either
leaves it alone, sets the sender's entry, or — only in a successful free-text
continuation, with the `"Saved ✅"` reply — removes the sender's entry. -/
theorem handle_message_pending_trichotomy
    (resolve : CivilDateTime → LocalResult String) (nowYear : ℤ) (nowTs : String)
    (store : Store) (msg : Msg) :
    (handle_message resolve nowYear nowTs store msg).2.pending = store.pending ∨
    (∃ p, (handle_message resolve nowYear nowTs store msg).2.pending =
      alistSet store.pending msg.chat p) ∨
    ((handle_message resolve nowYear nowTs store msg).1 = [msgSaved] ∧
      (handle_message resolve nowYear nowTs store msg).2.pending =
        alistRemove store.pending msg.chat) := by
  unfold handle_message
  dsimp only
  by_cases hallow : store.allowed.contains msg.chat = true
  · rw [if_pos hallow]
    cases htext : msg.text with
    | none => exact Or.inl rfl
    | some rawText =>
      dsimp only
      by_cases hhelp : trimS rawText = "/help"
      · rw [if_pos hhelp]
        exact Or.inl rfl
      · rw [if_neg hhelp]
        cases hglu : parse_glucose_add_command (trimS rawText) with
        | some tp =>
          obtain ⟨tag, payload⟩ := tp
          dsimp only
          by_cases hpe : trimS payload = ""
          · rw [if_pos hpe]
            exact Or.inl rfl
          · rw [if_neg hpe]
            cases parse_glucose_payload resolve nowYear (trimS payload) with
            | error emsg => exact Or.inl rfl
            | ok vtn =>
              obtain ⟨v, ts, n⟩ := vtn
              exact Or.inl rfl
        | none =>
          cases hmed : parse_addmed_command (trimS rawText) with
          | some name =>
            dsimp only
            by_cases hne : name = ""
            · rw [if_pos hne]
              exact Or.inl rfl
            · rw [if_neg hne]
              have hp := add_medication_pending store msg.chat name
              rcases hadd : add_medication store msg.chat name with ⟨added, store'⟩
              rw [hadd] at hp
              dsimp only
              cases added
              · exact Or.inl hp
              · exact Or.inl hp
          | none =>
            by_cases hmenu : trimS rawText = "/start" ∨ trimS rawText = "/menu" ∨
              trimS rawText = BTN_SHOW_MENU
            · rw [if_pos hmenu]
              exact Or.inl rfl
            · rw [if_neg hmenu]
              by_cases hgb : trimS rawText = BTN_GLUCOSE_BEFORE_MEAL
              · rw [if_pos hgb]
                exact Or.inr (Or.inl ⟨_, rfl⟩)
              · rw [if_neg hgb]
                by_cases hga : trimS rawText = BTN_GLUCOSE_AFTER_MEAL
                · rw [if_pos hga]
                  exact Or.inr (Or.inl ⟨_, rfl⟩)
                · rw [if_neg hga]
                  by_cases hw : trimS rawText = BTN_WEIGHT
                  · rw [if_pos hw]
                    exact Or.inr (Or.inl ⟨_, rfl⟩)
                  · rw [if_neg hw]
                    cases parse_medication_button (trimS rawText) with
                    | some medication_name =>
                      dsimp only
                      by_cases hex :
                        medication_exists store msg.chat medication_name = true
                      · rw [if_pos hex]
                        exact Or.inl rfl
                      · rw [if_neg hex]
                        exact Or.inl rfl
                    | none =>
                      cases hgp : get_pending store msg.chat with
                      | none => exact Or.inl rfl
                      | some p =>
                        cases p with
                        | glucoseBeforeMeal =>
                          cases parse_glucose_payload resolve nowYear
                            (trimS rawText) with
                          | error emsg => exact Or.inl rfl
                          | ok vtn =>
                            obtain ⟨v, ts, n⟩ := vtn
                            exact Or.inr (Or.inr ⟨rfl, rfl⟩)
                        | glucoseAfterMeal =>
                          cases parse_glucose_payload resolve nowYear
                            (trimS rawText) with
                          | error emsg => exact Or.inl rfl
                          | ok vtn =>
                            obtain ⟨v, ts, n⟩ := vtn
                            exact Or.inr (Or.inr ⟨rfl, rfl⟩)
                        | weight =>
                          cases parse_decimal (trimS rawText) with
                          | none => exact Or.inl rfl
                          | some v => exact Or.inr (Or.inr ⟨rfl, rfl⟩)
  · rw [if_neg hallow]
    exact Or.inl rfl

/-- C3: a direct glucose command (`/addgb`/`/addga` and long forms) leaves the
pending map exactly as it was, whether the payload is empty, fails to parse, or
saves a record; and a pending entry can only be cleared by the free-text
continuation path, whose successful save is the only branch replying
`"Saved ✅"`. -/
theorem C3_direct_command_keeps_pending :
    (∀ (resolve : CivilDateTime → LocalResult String) (nowYear : ℤ) (nowTs : String)
      (store : Store) (chat : ChatIdT) (rawText : String) (tag : GlucoseTag)
      (payload : String),
      store.allowed.contains chat = true →
      parse_glucose_add_command (trimS rawText) = some (tag, payload) →
      (handle_message resolve nowYear nowTs store ⟨chat, some rawText⟩).2.pending =
        store.pending) ∧
    (∀ (resolve : CivilDateTime → LocalResult String) (nowYear : ℤ) (nowTs : String)
      (store : Store) (msg : Msg) (p : PendingEntry),
      get_pending store msg.chat = some p →
      get_pending (handle_message resolve nowYear nowTs store msg).2 msg.chat =
        none →
      (handle_message resolve nowYear nowTs store msg).1 = [msgSaved]) := by
  constructor
  · intro resolve nowYear nowTs store chat rawText tag payload hallow hcmd
    have hhelp : trimS rawText ≠ "/help" := by
      intro e
      rw [e, (by decide : parse_glucose_add_command "/help" = none)] at hcmd
      exact Option.noConfusion hcmd
    unfold handle_message
    dsimp only
    rw [if_pos hallow, if_neg hhelp, hcmd]
    dsimp only
    by_cases hpe : trimS payload = ""
    · rw [if_pos hpe]
    · rw [if_neg hpe]
      cases parse_glucose_payload resolve nowYear (trimS payload) with
      | error emsg => rfl
      | ok vtn =>
        obtain ⟨v, ts, n⟩ := vtn
        rfl
  · intro resolve nowYear nowTs store msg p hp hnone
    rcases handle_message_pending_trichotomy resolve nowYear nowTs store msg with
      h | ⟨q, h⟩ | ⟨h1, h2⟩
    · exfalso
      unfold get_pending at hnone hp
      rw [h, hp] at hnone
      exact Option.noConfusion hnone
    · exfalso
      unfold get_pending at hnone
      rw [h, alistGet_set_self] at hnone
      exact Option.noConfusion hnone
    · exact h1

theorem C3_direct_command_keeps_pending_witness :
    (handle_message (fun _ => LocalResult.single "RT") 2024 "TS"
      ⟨[(1, .weight)], [1], [], []⟩ ⟨1, some "/addgb 5.8"⟩).2.pending =
      [(1, PendingEntry.weight)] ∧
    (handle_message (fun _ => LocalResult.single "RT") 2024 "TS"
      ⟨[(1, .weight)], [1], [], []⟩ ⟨1, some "78.4"⟩).1 = [msgSaved] :=
  ⟨C3_direct_command_keeps_pending.1 (fun _ => LocalResult.single "RT") 2024 "TS"
      ⟨[(1, .weight)], [1], [], []⟩ 1 "/addgb 5.8" .beforeMeal "5.8" (by decide)
      (by decide),
    C3_direct_command_keeps_pending.2 (fun _ => LocalResult.single "RT") 2024 "TS"
      ⟨[(1, .weight)], [1], [], []⟩ ⟨1, some "78.4"⟩ .weight (by decide)
      (by decide)⟩

theorem splitAtFirst_eq_none (p : Char → Bool) (l : List Char)
    (h : ∀ c ∈ l, p c = false) : splitAtFirst p l = none := by
  induction l with
  | nil => rfl
  | cons a tl ih =>
    have ha := h a (List.mem_cons_self a tl)
    simp [splitAtFirst, ha, ih fun c hc => h c (List.mem_cons_of_mem a hc)]

theorem splitAtFirst_append (p : Char → Bool) (pre post : List Char) (c : Char)
    (hpre : ∀ x ∈ pre, p x = false) (hc : p c = true) :
    splitAtFirst p (pre ++ c :: post) = some (pre, post) := by
  induction pre with
  | nil => simp [splitAtFirst, hc]
  | cons a tl ih =>
    have ha := hpre a (List.mem_cons_self a tl)
    simp [splitAtFirst, ha,
      ih fun x hx => hpre x (List.mem_cons_of_mem a hx)]

/-- C4: the note is the text after the first `@` with at most one leading space
stripped and a bare `@` yields no note; the first whitespace token of the
note-free remainder must parse as a decimal; any tokens after the value must
jointly parse as a date-time; and on each failure the direct-command handler
replies with the corrective message and leaves the whole state unchanged. -/
theorem C4_glucose_payload_grammar :
    (∀ (pre post : List Char), '@' ∉ pre →
      split_note (String.mk (pre ++ '@' :: post)) =
        (trimS (String.mk pre),
          if (stripOneSpace post).isEmpty then none
          else some (String.mk (stripOneSpace post)))) ∧
    (∀ s : String, '@' ∉ s.data → split_note s = (trimS s, none)) ∧
    (∀ (resolve : CivilDateTime → LocalResult String) (nowYear : ℤ)
      (payload : String),
      (splitWhitespaceS (split_note payload).1 = [] →
        parse_glucose_payload resolve nowYear payload = .error msgMissingValue) ∧
      (∀ v rest, splitWhitespaceS (split_note payload).1 = v :: rest →
        parse_decimal v = none →
        parse_glucose_payload resolve nowYear payload = .error msgInvalidValue) ∧
      (∀ v rest q, splitWhitespaceS (split_note payload).1 = v :: rest →
        parse_decimal v = some q →
        trimS (joinSpace rest) ≠ "" →
        parse_flexible_datetime resolve nowYear (joinSpace rest) = none →
        parse_glucose_payload resolve nowYear payload =
          .error msgInvalidDateTime)) ∧
    (∀ (resolve : CivilDateTime → LocalResult String) (nowYear : ℤ)
      (nowTs : String) (store : Store) (chat : ChatIdT) (rawText : String)
      (tag : GlucoseTag) (payload emsg : String),
      store.allowed.contains chat = true →
      parse_glucose_add_command (trimS rawText) = some (tag, payload) →
      trimS payload ≠ "" →
      parse_glucose_payload resolve nowYear (trimS payload) = .error emsg →
      handle_message resolve nowYear nowTs store ⟨chat, some rawText⟩ =
        ([emsg], store)) := by
  refine ⟨?_, ?_, ?_, ?_⟩
  · intro pre post hpre
    unfold split_note
    rw [show (String.mk (pre ++ '@' :: post)).data = pre ++ '@' :: post from rfl,
      splitAtFirst_append _ pre post '@'
        (fun x hx => decide_eq_false fun (e : x = '@') => hpre (e ▸ hx))
        (by decide)]
    dsimp only
    split <;> simp_all
  · intro s hs
    unfold split_note
    rw [splitAtFirst_eq_none _ s.data
      (fun c hc => decide_eq_false fun (e : c = '@') => hs (e ▸ hc))]
  · intro resolve nowYear payload
    refine ⟨?_, ?_, ?_⟩
    · intro h0
      unfold parse_glucose_payload
      rcases hsn : split_note payload with ⟨wn, note⟩
      rw [hsn] at h0
      dsimp only at h0 ⊢
      rw [h0]
    · intro v rest hv hdec
      unfold parse_glucose_payload
      rcases hsn : split_note payload with ⟨wn, note⟩
      rw [hsn] at hv
      dsimp only at hv ⊢
      rw [hv]
      dsimp only
      rw [hdec]
    · intro v rest q hv hdec hne hdt
      unfold parse_glucose_payload
      rcases hsn : split_note payload with ⟨wn, note⟩
      rw [hsn] at hv
      dsimp only at hv ⊢
      rw [hv]
      dsimp only
      rw [hdec]
      dsimp only
      rw [if_neg hne, hdt]
  · intro resolve nowYear nowTs store chat rawText tag payload emsg hallow hcmd
      hpe herr
    have hhelp : trimS rawText ≠ "/help" := by
      intro e
      rw [e, (by decide : parse_glucose_add_command "/help" = none)] at hcmd
      exact Option.noConfusion hcmd
    unfold handle_message
    dsimp only
    rw [if_pos hallow, if_neg hhelp, hcmd]
    dsimp only
    rw [if_neg hpe, herr]

theorem C4_glucose_payload_grammar_witness :
    split_note (String.mk ("5,8 ".data ++ '@' :: " before breakfast".data)) =
      ("5,8", some "before breakfast") ∧
    split_note "5.8" = ("5.8", none) ∧
    parse_glucose_payload (fun _ => LocalResult.single "RT") 2024 "abc" =
      .error msgInvalidValue ∧
    handle_message (fun _ => LocalResult.single "RT") 2024 "TS"
      ⟨[], [1], [], []⟩ ⟨1, some "/addgb 5.8 99:99"⟩ =
      ([msgInvalidDateTime], ⟨[], [1], [], []⟩) :=
  ⟨by
      have h := C4_glucose_payload_grammar.1 "5,8 ".data " before breakfast".data
        (by decide)
      rw [h]
      decide,
    C4_glucose_payload_grammar.2.1 "5.8" (by decide),
    (C4_glucose_payload_grammar.2.2.1 (fun _ => LocalResult.single "RT") 2024
      "abc").2.1 "abc" [] (by decide) (by decide),
    C4_glucose_payload_grammar.2.2.2 (fun _ => LocalResult.single "RT") 2024 "TS"
      ⟨[], [1], [], []⟩ 1 "/addgb 5.8 99:99" .beforeMeal "5.8 99:99"
      msgInvalidDateTime (by decide) (by decide) (by decide) (by rfl)⟩

/-! ### Date/time claims -/

/-- With a resolver free of DST gaps, the parse fails exactly when civil parsing
fails. -/
theorem parse_flexible_datetime_none_iff {α : Type}
    (resolve : CivilDateTime → LocalResult α)
    (hres : ∀ dt, resolve dt ≠ .noneR) (nowYear : ℤ) (input : String) :
    parse_flexible_datetime resolve nowYear input = none ↔
      parse_flexible_naive nowYear input = none := by
  unfold parse_flexible_datetime
  cases h : parse_flexible_naive nowYear input with
  | none => simp
  | some naive =>
    cases hr : resolve naive with
    | single dt => simp [hr]
    | ambiguous e l => simp [hr]
    | noneR => exact absurd hr (hres naive)

/-- Claim-side condition of C5: the date token does not have 2 or 3 `/`-separated
numeric fields (`parse_date_fields` is the source's field extraction, which fails
on exactly those tokens). -/
def dateFieldsBad (nowYear : ℤ) (date_part : String) : Prop :=
  parse_date_fields nowYear (splitOnCharS '/' date_part) = none

/-- Claim-side condition of C5: the time token does not have exactly 2
`:`-separated numeric fields. -/
def timeFieldsBad (time_part : String) : Prop :=
  match splitOnCharS ':' time_part with
  | [hs, ms] => parseU32 hs = none ∨ parseU32 ms = none
  | _ => True

/-- Claim-side condition of C5: the hour exceeds 23 or the minute exceeds 59. -/
def hmOutOfRange (time_part : String) : Prop :=
  match splitOnCharS ':' time_part with
  | [hs, ms] =>
    match parseU32 hs, parseU32 ms with
    | some hour, some minute => hour > 23 ∨ minute > 59
    | _, _ => False
  | _ => False

/-- Claim-side condition of C5: the extracted calendar date does not exist. -/
def dateNotExists (nowYear : ℤ) (date_part : String) : Prop :=
  match parse_date_fields nowYear (splitOnCharS '/' date_part) with
  | some (y, mo, da) => from_ymd_opt y mo da = none
  | none => False

/-- The disjunction of failure conditions enumerated by C5; the fallthrough arm is
the "not exactly two whitespace tokens" condition. -/
def C5conds (nowYear : ℤ) (input : String) : Prop :=
  match splitWhitespaceS (normalizedInput input) with
  | [date_part, time_part] =>
    dateFieldsBad nowYear date_part ∨ timeFieldsBad time_part ∨
      hmOutOfRange time_part ∨ dateNotExists nowYear date_part
  | _ => True

/-- `parse_date_fields` fails on every field list that is not 2 or 3 long. -/
theorem parse_date_fields_eq_none_of_len (nowYear : ℤ) (l : List String)
    (h : ¬(l.length = 2 ∨ l.length = 3)) : parse_date_fields nowYear l = none := by
  rcases l with - | ⟨a, - | ⟨b, - | ⟨c, - | ⟨e, r⟩⟩⟩⟩
  · rfl
  · rfl
  · exact absurd (Or.inl rfl) h
  · exact absurd (Or.inr rfl) h
  · rfl

/-- February never has 30 days, whatever the year. -/
theorem from_ymd_opt_feb30 (y : ℤ) : from_ymd_opt y 2 30 = none := by
  by_cases hl : isLeapYear y = true <;> simp [from_ymd_opt, daysInMonth, hl]

/-- C5: with the local resolution free of DST gaps, `parse_flexible_datetime`
returns `none` exactly when the input does not split into two whitespace tokens,
the date token does not have 2 or 3 numeric `/`-fields, the time token does not
have exactly 2 numeric `:`-fields, the hour exceeds 23 or the minute exceeds 59,
or the extracted calendar date does not exist; in particular `"2/30 9:05"`
fails. -/
theorem C5_invalid_datetime_exactly {α : Type}
    (resolve : CivilDateTime → LocalResult α)
    (hres : ∀ dt, resolve dt ≠ .noneR) (nowYear : ℤ) :
    (∀ input, parse_flexible_datetime resolve nowYear input = none ↔
      C5conds nowYear input) ∧
    parse_flexible_datetime resolve nowYear "2/30 9:05" = none := by
  have main : ∀ input, parse_flexible_datetime resolve nowYear input = none ↔
      C5conds nowYear input := by
    intro input
    rw [parse_flexible_datetime_none_iff resolve hres]
    unfold parse_flexible_naive C5conds
    rcases hsw : splitWhitespaceS (normalizedInput input) with
      - | ⟨d, - | ⟨t, - | ⟨u, rest⟩⟩⟩
    · simp
    · simp
    · dsimp only
      by_cases hlen : (splitOnCharS '/' d).length = 2 ∨ (splitOnCharS '/' d).length = 3
      · rw [if_pos hlen]
        rcases hts : splitOnCharS ':' t with - | ⟨hs, - | ⟨ms, - | ⟨x, trest⟩⟩⟩
        · simp [timeFieldsBad, hts]
        · simp [timeFieldsBad, hts]
        · dsimp only
          cases hu : parseU32 hs with
          | none => simp [timeFieldsBad, hts, hu]
          | some hour =>
            cases hv : parseU32 ms with
            | none => simp [timeFieldsBad, hts, hu, hv]
            | some minute =>
              dsimp only
              by_cases hr : hour > 23 ∨ minute > 59
              · simp [hr, hmOutOfRange, hts, hu, hv]
              · rw [if_neg hr]
                cases hdf : parse_date_fields nowYear (splitOnCharS '/' d) with
                | none =>
                  simp [dateFieldsBad, timeFieldsBad, hmOutOfRange, dateNotExists,
                    hts, hu, hv, hr, hdf]
                | some ymd =>
                  obtain ⟨y, mo, da⟩ := ymd
                  cases hfy : from_ymd_opt y mo da with
                  | none =>
                    simp [dateFieldsBad, timeFieldsBad, hmOutOfRange, dateNotExists,
                      hts, hu, hv, hr, hdf, hfy]
                  | some v =>
                    have hh : from_hms_opt hour minute 0 = some (hour, minute, 0) := by
                      unfold from_hms_opt
                      rw [if_pos]
                      push_neg at hr
                      exact ⟨hr.1, hr.2, by omega⟩
                    simp [hh, dateFieldsBad, timeFieldsBad, hmOutOfRange,
                      dateNotExists, hts, hu, hv, hr, hdf, hfy]
        · simp [timeFieldsBad, hts]
      · rw [if_neg hlen]
        simp [dateFieldsBad, parse_date_fields_eq_none_of_len nowYear _ hlen]
    · simp
  refine ⟨main, (main _).2 ?_⟩
  have hsw : splitWhitespaceS (normalizedInput "2/30 9:05") = ["2/30", "9:05"] := by
    decide
  unfold C5conds
  rw [hsw]
  refine Or.inr (Or.inr (Or.inr ?_))
  unfold dateNotExists
  have hpd : parse_date_fields nowYear (splitOnCharS '/' "2/30") =
      some (nowYear, 2, 30) := by
    have h2 : splitOnCharS '/' "2/30" = ["2", "30"] := by decide
    rw [h2]
    simp [parse_date_fields, (by decide : parseU32 "2" = some 2),
      (by decide : parseU32 "30" = some 30)]
  rw [hpd]
  exact from_ymd_opt_feb30 nowYear

theorem C5_invalid_datetime_exactly_witness :
    parse_flexible_datetime (fun _ => LocalResult.single (0 : ℕ)) 2024
      "2/30 9:05" = none :=
  (C5_invalid_datetime_exactly (fun _ => LocalResult.single (0 : ℕ))
    (fun dt => by simp) 2024).2

/-- C6: with the current year 2024, all four date spellings denote February 1,
2024 at 09:05:00; in the 3-field form a year `0..=99` means `2000 + year`, and the
2-field form takes the current year. -/
theorem C6_year_interpretation :
    (parse_flexible_datetime resolveCivil 2024 "2/1 9:05" =
        some ⟨2024, 2, 1, 9, 5, 0⟩ ∧
      parse_flexible_datetime resolveCivil 2024 "02/01 09:05" =
        some ⟨2024, 2, 1, 9, 5, 0⟩ ∧
      parse_flexible_datetime resolveCivil 2024 "24/2/1 9:05" =
        some ⟨2024, 2, 1, 9, 5, 0⟩ ∧
      parse_flexible_datetime resolveCivil 2024 "2024/2/1 9:05" =
        some ⟨2024, 2, 1, 9, 5, 0⟩) ∧
    (∀ (nowYear : ℤ) (ys ms ds : String) (yr : ℤ) (mo da : ℕ),
      parseI32 ys = some yr → parseU32 ms = some mo → parseU32 ds = some da →
      0 ≤ yr → yr ≤ 99 →
      parse_date_fields nowYear [ys, ms, ds] = some (2000 + yr, mo, da)) ∧
    (∀ (nowYear : ℤ) (ms ds : String) (mo da : ℕ),
      parseU32 ms = some mo → parseU32 ds = some da →
      parse_date_fields nowYear [ms, ds] = some (nowYear, mo, da)) := by
  refine ⟨⟨by decide, by decide, by decide, by decide⟩, ?_, ?_⟩
  · intro nowYear ys ms ds yr mo da hy hm hd h0 h99
    unfold parse_date_fields
    dsimp only
    rw [hy, hm, hd]
    dsimp only
    rw [if_pos ⟨h0, h99⟩]
  · intro nowYear ms ds mo da hm hd
    unfold parse_date_fields
    dsimp only
    rw [hm, hd]

theorem C6_year_interpretation_witness :
    parse_date_fields 2024 ["24", "2", "1"] = some (2024, 2, 1) ∧
    parse_date_fields 2024 ["2", "1"] = some (2024, 2, 1) :=
  ⟨C6_year_interpretation.2.1 2024 "24" "2" "1" 24 2 1 (by decide) (by decide)
      (by decide) (by decide) (by decide),
    C6_year_interpretation.2.2 2024 "2" "1" 2 1 (by decide) (by decide)⟩

/-- C7: once the civil date-time is parsed, an ambiguous local time resolves to
the earlier of the two candidate instants, and a nonexistent local time (DST gap)
makes the whole parse fail. -/
theorem C7_ambiguous_takes_earliest {α : Type}
    (resolve : CivilDateTime → LocalResult α) (nowYear : ℤ) (input : String)
    (naive : CivilDateTime) (hp : parse_flexible_naive nowYear input = some naive) :
    (∀ e l, resolve naive = .ambiguous e l →
      parse_flexible_datetime resolve nowYear input = some e) ∧
    (resolve naive = .noneR →
      parse_flexible_datetime resolve nowYear input = none) := by
  unfold parse_flexible_datetime
  rw [hp]
  exact ⟨fun e l h => by dsimp only; rw [h], fun h => by dsimp only; rw [h]⟩

theorem C7_ambiguous_takes_earliest_witness :
    parse_flexible_datetime (fun _ => LocalResult.ambiguous (10 : ℕ) 20) 2024
      "2/1 9:05" = some 10 ∧
    parse_flexible_datetime (fun _ => (LocalResult.noneR : LocalResult ℕ)) 2024
      "2/1 9:05" = none :=
  ⟨(C7_ambiguous_takes_earliest (fun _ => LocalResult.ambiguous (10 : ℕ) 20) 2024
      "2/1 9:05" ⟨2024, 2, 1, 9, 5, 0⟩ (by decide)).1 10 20 rfl,
    (C7_ambiguous_takes_earliest (fun _ => (LocalResult.noneR : LocalResult ℕ))
      2024 "2/1 9:05" ⟨2024, 2, 1, 9, 5, 0⟩ (by decide)).2 rfl⟩

/-- C9: `add_medication` collapses internal whitespace, is a `false` no-op on
names that normalize to the empty string or are already present up to ASCII case,
and otherwise appends exactly the normalized name (touching nothing else) and
returns `true`; adding `"Aspirin"` then makes `"aspirin"` exist and a second add
return `false`. -/
theorem C9_add_medication_spec :
    (∀ (store : Store) (chat : ChatIdT) (name : String),
      normalize_medication_name name = "" →
      add_medication store chat name = (false, store)) ∧
    (∀ (store : Store) (chat : ChatIdT) (name : String),
      medication_exists store chat name = true →
      add_medication store chat name = (false, store)) ∧
    (∀ (store : Store) (chat : ChatIdT) (name : String),
      normalize_medication_name name ≠ "" →
      medication_exists store chat name = false →
      (add_medication store chat name).1 = true ∧
      alistGet (add_medication store chat name).2.meds chat =
        some ((alistGet store.meds chat).getD [] ++
          [normalize_medication_name name]) ∧
      (add_medication store chat name).2.pending = store.pending ∧
      (add_medication store chat name).2.files = store.files) ∧
    ((add_medication ⟨[], [1], [], []⟩ 1 "Aspirin").1 = true ∧
      medication_exists (add_medication ⟨[], [1], [], []⟩ 1 "Aspirin").2 1
        "aspirin" = true ∧
      (add_medication (add_medication ⟨[], [1], [], []⟩ 1 "Aspirin").2 1
        "aspirin").1 = false) := by
  refine ⟨?_, ?_, ?_, by decide⟩
  · intro store chat name h0
    unfold add_medication
    simp [h0]
  · intro store chat name h1
    unfold medication_exists at h1
    unfold add_medication
    by_cases h0 : normalize_medication_name name = ""
    · simp [h0]
    · simp [h0, h1]
  · intro store chat name h0 h1
    unfold medication_exists at h1
    have hres : add_medication store chat name =
        (true, append_medication_name store chat (normalize_medication_name name)) := by
      unfold add_medication
      simp [h0, h1]
    rw [hres]
    unfold append_medication_name
    cases hm : alistGet store.meds chat with
    | none => simp [hm, alistGet_set_self]
    | some content => simp [hm, alistGet_set_self]

theorem C9_add_medication_spec_witness :
    add_medication ⟨[], [1], [], []⟩ 1 "  " = (false, ⟨[], [1], [], []⟩) ∧
    add_medication ⟨[], [1], [], [(1, ["Aspirin"])]⟩ 1 "aspirin" =
      (false, ⟨[], [1], [], [(1, ["Aspirin"])]⟩) ∧
    (add_medication ⟨[], [1], [], []⟩ 1 "Aspirin").1 = true :=
  ⟨C9_add_medication_spec.1 ⟨[], [1], [], []⟩ 1 "  " (by decide),
    C9_add_medication_spec.2.1 ⟨[], [1], [], [(1, ["Aspirin"])]⟩ 1 "aspirin"
      (by decide),
    (C9_add_medication_spec.2.2.1 ⟨[], [1], [], []⟩ 1 "Aspirin" (by decide)
      (by decide)).1⟩

theorem C8_append_only_header_once_witness :
    (alistGet ([] : Files) (FileKey.glucoseCsv 1) = none) ∧
    alistGet
        (append_glucose_csv "t3"
          (append_glucose_csv "t2"
            (append_glucose_csv "t1" ([] : Files) 1 .beforeMeal (.finite 5) none none)
            1 .afterMeal (.finite 6) none (some "n"))
          1 .beforeMeal (.finite 7) (some "T") none)
        (FileKey.glucoseCsv 1) =
      some [Line.header glucoseHeader,
        Line.glucoseData "t1" 1 .beforeMeal (.finite 5) none,
        Line.glucoseData "t2" 1 .afterMeal (.finite 6) (some "n"),
        Line.glucoseData "T" 1 .beforeMeal (.finite 7) none] :=
  ⟨by decide,
    C8_append_only_header_once.2 [] 1 "t1" "t2" "t3" .beforeMeal .afterMeal
      .beforeMeal (.finite 5) (.finite 6) (.finite 7) none none (some "T") none
      (some "n") none (by decide)⟩

end PddBot
